import Mathlib

set_option maxRecDepth 2048

/-
Formal model of the MAD framework debate orchestration engine.

Embedded source files:
  src/mad/core/state.py        (DebateState, DebateMessage, create_initial_state)
  src/mad/core/graph.py        (initialize/debate/moderate/judge nodes, routing)
  src/mad/agents/base.py       (BaseAgent._create_response_message)
  src/mad/agents/debater.py    (DebaterAgent.act)
  src/mad/agents/judge.py      (JudgeAgent.act, JudgeAgent.parse_verdict)
  src/mad/agents/moderator.py  (ModeratorAgent.act, parse_moderation, should_stop_early)
  src/mad/strategies/round_robin.py (RoundRobinStrategy.execute_round)

Modelling conventions:
  - Python floats are modelled as rationals.
  - JSON values produced by json.loads are modelled by the inductive type Json;
    json.loads itself is modelled by jsonLoads, a strict recursive-descent
    parser of the JSON grammar (whitespace, objects, arrays, strings with
    escapes, numbers with fraction/exponent, literals).  The NaN/Infinity
    extension of Python's json module is not modelled.
  - Python dicts obtained from JSON objects are association lists in parse
    order; lookup takes the last binding for a key (Python: later duplicate
    keys win).
  - The external LLM backend call provider.generate is modelled by a
    response function carried by each agent: the response is an arbitrary
    function of the request state.
  - datetime.now() is abstracted: timestamps are opaque strings supplied by
    the environment.
-/

/-- JSON values, as returned by Python's json.loads. -/
inductive Json where
  | null : Json
  | bool (b : Bool) : Json
  | num (q : ℚ) : Json
  | str (s : String) : Json
  | arr (elems : List Json) : Json
  | obj (fields : List (String × Json)) : Json

/-- JSON whitespace skipping (json.loads accepts space, tab, newline, CR). -/
def skipWs (cs : List Char) : List Char :=
  cs.dropWhile (fun c => c == ' ' || c == '\t' || c == '\n' || c == '\r')

def isJsonDigit (c : Char) : Bool := '0' ≤ c && c ≤ '9'

def digitsToNat (ds : List Char) : Nat :=
  ds.foldl (fun n c => 10 * n + (c.toNat - 48)) 0

def isHexDigit (c : Char) : Bool :=
  isJsonDigit c || ('a' ≤ c && c ≤ 'f') || ('A' ≤ c && c ≤ 'F')

def hexVal (c : Char) : Nat :=
  if isJsonDigit c then c.toNat - 48
  else if 'a' ≤ c && c ≤ 'f' then c.toNat - 87
  else c.toNat - 55

/-- Body of a JSON string literal, after the opening quote.  Rejects raw
control characters (json.loads strict mode) and bad escapes. -/
def parseStrBody : List Char → List Char → Option (String × List Char)
  | [], _ => none
  | '\x22' :: rest, acc => some (String.mk acc.reverse, rest)
  | '\x5c' :: rest, acc =>
    match rest with
    | '\x22' :: r => parseStrBody r ('\x22' :: acc)
    | '\x5c' :: r => parseStrBody r ('\x5c' :: acc)
    | '/' :: r => parseStrBody r ('/' :: acc)
    | 'b' :: r => parseStrBody r (Char.ofNat 8 :: acc)
    | 'f' :: r => parseStrBody r (Char.ofNat 12 :: acc)
    | 'n' :: r => parseStrBody r ('\n' :: acc)
    | 'r' :: r => parseStrBody r ('\r' :: acc)
    | 't' :: r => parseStrBody r ('\t' :: acc)
    | 'u' :: a :: b :: c :: d :: r =>
      if isHexDigit a && isHexDigit b && isHexDigit c && isHexDigit d then
        parseStrBody r
          (Char.ofNat (((hexVal a * 16 + hexVal b) * 16 + hexVal c) * 16 + hexVal d) :: acc)
      else none
    | _ => none
  | c :: rest, acc =>
    if c.toNat < 32 then none else parseStrBody rest (c :: acc)

/-- JSON number token: -? int frac? exp?, with the JSON leading-zero rule.
The numeric value is exact (Python would produce a float when a fraction or
exponent is present). -/
def parseNum (cs : List Char) : Option (Json × List Char) :=
  let (neg, cs1) := match cs with
    | '-' :: r => (true, r)
    | _ => (false, cs)
  let intPart : Option (Nat × List Char) := match cs1 with
    | '0' :: r => some (0, r)
    | c :: _ =>
      if isJsonDigit c && c ≠ '0' then
        let ds := cs1.takeWhile isJsonDigit
        some (digitsToNat ds, cs1.dropWhile isJsonDigit)
      else none
    | [] => none
  match intPart with
  | none => none
  | some (iv, r1) =>
    let fracPart : Option (Nat × Nat × List Char) := match r1 with
      | '.' :: r2 =>
        let ds := r2.takeWhile isJsonDigit
        if ds.isEmpty then none else some (digitsToNat ds, ds.length, r2.dropWhile isJsonDigit)
      | _ => some (0, 0, r1)
    match fracPart with
    | none => none
    | some (fv, fl, r3) =>
      let expPart : Option (Bool × Nat × List Char) := match r3 with
        | 'e' :: r4 | 'E' :: r4 =>
          let (esign, r5) := match r4 with
            | '+' :: r6 => (false, r6)
            | '-' :: r6 => (true, r6)
            | _ => (false, r4)
          let ds := r5.takeWhile isJsonDigit
          if ds.isEmpty then none else some (esign, digitsToNat ds, r5.dropWhile isJsonDigit)
        | _ => some (false, 0, r3)
      match expPart with
      | none => none
      | some (eneg, ev, r7) =>
        let mantissa := iv * 10 ^ fl + fv
        let mantissa := if eneg then mantissa else mantissa * 10 ^ ev
        let denom := if eneg then 10 ^ fl * 10 ^ ev else 10 ^ fl
        let q := mkRat (if neg then -(mantissa : Int) else (mantissa : Int)) denom
        some (Json.num q, r7)

mutual

/-- One JSON value, fuel-indexed recursive descent. -/
def parseVal : Nat → List Char → Option (Json × List Char)
  | 0, _ => none
  | f + 1, cs =>
    match skipWs cs with
    | 'n' :: 'u' :: 'l' :: 'l' :: r => some (Json.null, r)
    | 't' :: 'r' :: 'u' :: 'e' :: r => some (Json.bool true, r)
    | 'f' :: 'a' :: 'l' :: 's' :: 'e' :: r => some (Json.bool false, r)
    | '\x22' :: r => (parseStrBody r []).map (fun p => (Json.str p.1, p.2))
    | '\x5b' :: r =>
      match skipWs r with
      | '\x5d' :: r2 => some (Json.arr [], r2)
      | r2 => parseElems f r2 []
    | '\x7b' :: r =>
      match skipWs r with
      | '\x7d' :: r2 => some (Json.obj [], r2)
      | r2 => parseMembers f r2 []
    | cs2 => parseNum cs2

/-- Array elements after the opening bracket (non-empty case). -/
def parseElems : Nat → List Char → List Json → Option (Json × List Char)
  | 0, _, _ => none
  | f + 1, cs, acc =>
    match parseVal f cs with
    | none => none
    | some (v, r) =>
      match skipWs r with
      | ',' :: r2 => parseElems f r2 (v :: acc)
      | '\x5d' :: r2 => some (Json.arr (v :: acc).reverse, r2)
      | _ => none

/-- Object members after the opening brace (non-empty case). -/
def parseMembers : Nat → List Char → List (String × Json) → Option (Json × List Char)
  | 0, _, _ => none
  | f + 1, cs, acc =>
    match skipWs cs with
    | '\x22' :: r =>
      match parseStrBody r [] with
      | none => none
      | some (key, r2) =>
        match skipWs r2 with
        | ':' :: r3 =>
          match parseVal f r3 with
          | none => none
          | some (v, r4) =>
            match skipWs r4 with
            | ',' :: r5 => parseMembers f r5 ((key, v) :: acc)
            | '\x7d' :: r5 => some (Json.obj ((key, v) :: acc).reverse, r5)
            | _ => none
        | _ => none
    | _ => none

end

/-- Model of Python json.loads: parse one JSON value and require that only
whitespace remains.  Returns none where json.loads raises JSONDecodeError. -/
def jsonLoads (s : String) : Option Json :=
  match parseVal (2 * s.data.length + 4) s.data with
  | some (v, rest) => if (skipWs rest).isEmpty then some v else none
  | none => none

/-- Python str.find for a single character: index of first occurrence. -/
def pyFind : List Char → Char → Option Nat
  | [], _ => none
  | x :: xs, c => if x == c then some 0 else (pyFind xs c).map (· + 1)

/-- Python str.rfind for a single character: index of last occurrence. -/
def pyRFind (cs : List Char) (c : Char) : Option Nat :=
  (pyFind cs.reverse c).map (fun i => cs.length - 1 - i)

/-- The substring step shared by JudgeAgent.parse_verdict and
ModeratorAgent.parse_moderation:
start = content.find("\x7b"); end = content.rfind("\x7d") + 1;
if start != -1 and end > start: content[start:end]. -/
def extractBraces (content : String) : Option String :=
  match pyFind content.data '\x7b', pyRFind content.data '\x7d' with
  | some s, some e => if s ≤ e then some (String.mk ((content.data.drop s).take (e + 1 - s))) else none
  | _, _ => none

/-- json.loads applied to the extracted first-brace..last-brace substring;
none models both the no-extraction case and a JSONDecodeError. -/
def extractJson (content : String) : Option Json :=
  (extractBraces content).bind jsonLoads

/-- Dict lookup on a JSON object: Python duplicate keys resolve to the last
binding. -/
def dictGet (d : List (String × Json)) (k : String) : Option Json :=
  (d.reverse.find? (fun p => p.1 == k)).map Prod.snd

/-- Python dict.get(k, default). -/
def dictGetD (d : List (String × Json)) (k : String) (default : Json) : Json :=
  (dictGet d k).getD default

/-- Python truthiness of a JSON-derived value (used by `not should_continue`
in ModeratorAgent.should_stop_early). -/
def pyTruthy : Json → Bool
  | Json.null => false
  | Json.bool b => b
  | Json.num q => q ≠ 0
  | Json.str s => s ≠ ""
  | Json.arr xs => !xs.isEmpty
  | Json.obj fs => !fs.isEmpty

/-- Numeric view of a JSON-derived value for Python comparison with a float;
Python bools are numeric (True == 1, False == 0); any other non-number on
the left of >= raises TypeError, modelled as none. -/
def pyNum : Json → Option ℚ
  | Json.num q => some q
  | Json.bool b => some (if b then 1 else 0)
  | _ => none

/-- Fallback dict of JudgeAgent.parse_verdict (judge.py lines 154-162). -/
def fallbackVerdict (content : String) : List (String × Json) :=
  [("verdict", Json.str content),
   ("confidence", Json.num (mkRat 1 2)),
   ("reasoning", Json.str "Unable to parse structured verdict"),
   ("consensus_points", Json.arr []),
   ("dissenting_points", Json.arr []),
   ("recommendations", Json.str "")]

/-- JudgeAgent.parse_verdict: strict parse of the first-brace..last-brace
substring, falling back to fallbackVerdict when extraction or parsing fails.
A successful jsonLoads of the extracted substring always yields an object
because the substring begins with an opening brace. -/
def parse_verdict (content : String) : List (String × Json) :=
  match extractJson content with
  | some (Json.obj fields) => fields
  | _ => fallbackVerdict content

/-- Fallback dict of ModeratorAgent.parse_moderation (moderator.py lines
162-170). -/
def fallbackModeration : List (String × Json) :=
  [("consensus_score", Json.num 0),
   ("should_continue", Json.bool true),
   ("reasoning", Json.str "Unable to parse moderation response"),
   ("key_disagreements", Json.arr []),
   ("key_agreements", Json.arr []),
   ("quality_score", Json.num (mkRat 1 2))]

/-- ModeratorAgent.parse_moderation: same extraction strategy as the judge,
with the fail-open fallback. -/
def parse_moderation (content : String) : List (String × Json) :=
  match extractJson content with
  | some (Json.obj fields) => fields
  | _ => fallbackModeration

/-- ModeratorAgent.should_stop_early:
consensus = moderation.get("consensus_score", 0.0);
should_continue = moderation.get("should_continue", True);
return consensus >= self.consensus_threshold or not should_continue.
The comparison raises TypeError when the stored consensus value is not
numeric, modelled by none. -/
def should_stop_early (threshold : ℚ) (moderation : List (String × Json)) : Option Bool :=
  let consensus : Option ℚ := match dictGet moderation "consensus_score" with
    | none => some 0
    | some v => pyNum v
  let sc : Json := dictGetD moderation "should_continue" (Json.bool true)
  consensus.map (fun c => decide (threshold ≤ c) || !(pyTruthy sc))

/-- Agent roles (mad/agents/base.py AgentRole). -/
inductive Role where
  | debater : Role
  | judge : Role
  | moderator : Role
  | synthesizer : Role
deriving DecidableEq, Repr

/-- Debate phases (mad/core/state.py DebateState.phase). -/
inductive Phase where
  | init : Phase
  | debate : Phase
  | moderate : Phase
  | judge : Phase
  | synthesize : Phase
  | complete : Phase
deriving DecidableEq, Repr

/-- Per-call metadata attached to a DebateMessage by
BaseAgent._create_response_message: the four keyword arguments every agent
passes (input_tokens, output_tokens, cost, latency_ms from the provider
response). -/
structure Metadata where
  input_tokens : Nat
  output_tokens : Nat
  cost : ℚ
  latency_ms : ℚ
deriving DecidableEq, Repr

/-- DebateMessage (mad/core/state.py). -/
structure DebateMessage where
  agent_id : String
  agent_role : Role
  provider : String
  model : String
  content : String
  round : Nat
  timestamp : String
  metadata : Metadata
deriving DecidableEq, Repr

/-- create_message factory (mad/core/state.py); datetime.now() is abstracted
to the empty timestamp. -/
def create_message (agent_id : String) (agent_role : Role) (provider : String)
    (model : String) (content : String) (current_round : Nat) (metadata : Metadata) :
    DebateMessage :=
  { agent_id := agent_id
    agent_role := agent_role
    provider := provider
    model := model
    content := content
    round := current_round
    timestamp := ""
    metadata := metadata }

/-- DebateState (mad/core/state.py).  Fields that the graph nodes fill with
values taken from a parsed JSON dict (consensus_score, final_answer,
confidence_score, dissenting_opinions) are typed Json because Python's
TypedDict performs no runtime check; Python None is Json.null. -/
structure DebateState where
  topic : String
  context : Option String
  preset : Option String
  max_rounds : Nat
  current_round : Nat
  debater_count : Nat
  messages : List DebateMessage
  phase : Phase
  should_continue : Bool
  early_consensus : Bool
  consensus_score : Json
  judge_verdict : Option (List (String × Json))
  final_answer : Json
  confidence_score : Json
  dissenting_opinions : Json
  total_tokens : Nat
  total_cost : ℚ
  start_time : String
  end_time : Option String

/-- create_initial_state (mad/core/state.py). -/
def create_initial_state (topic : String) (context : Option String)
    (preset : Option String) (max_rounds : Nat) (debater_count : Nat) :
    DebateState :=
  { topic := topic
    context := context
    preset := preset
    max_rounds := max_rounds
    current_round := 0
    debater_count := debater_count
    messages := []
    phase := Phase.init
    should_continue := true
    early_consensus := false
    consensus_score := Json.num 0
    judge_verdict := none
    final_answer := Json.null
    confidence_score := Json.null
    dissenting_opinions := Json.arr []
    total_tokens := 0
    total_cost := 0
    start_time := ""
    end_time := none }

/-- Modelled from the spec: the LLM backend response record of
mad/providers/base.py (ProviderResponse), whose source file is not in the
embedded tree; section 6 of the spec fixes its shape as
content/input_tokens/output_tokens/cost/latency_ms. -/
structure ProviderResponse where
  content : String
  input_tokens : Nat
  output_tokens : Nat
  cost : ℚ
  latency_ms : ℚ

/-- A debater agent: configuration plus its external LLM backend, the
latter abstracted as a response function of the request state (the request
built by DebaterAgent._build_prompt is a function of the state and the
fixed agent configuration). -/
structure DebaterSpec where
  agent_id : String
  providerName : String
  model : String
  perspective : Option String := none
  respond : DebateState → ProviderResponse

/-- DebaterAgent.act: call the provider and wrap the response through
_create_response_message, which stamps round := state.current_round. -/
def DebaterSpec.act (d : DebaterSpec) (s : DebateState) : DebateMessage :=
  let r := d.respond s
  create_message d.agent_id Role.debater d.providerName d.model r.content
    s.current_round
    { input_tokens := r.input_tokens, output_tokens := r.output_tokens,
      cost := r.cost, latency_ms := r.latency_ms }

/-- A judge agent, with its external LLM backend abstracted as for
debaters. -/
structure JudgeSpec where
  agent_id : String
  providerName : String
  model : String
  respond : DebateState → ProviderResponse

/-- JudgeAgent.act. -/
def JudgeSpec.act (j : JudgeSpec) (s : DebateState) : DebateMessage :=
  let r := j.respond s
  create_message j.agent_id Role.judge j.providerName j.model r.content
    s.current_round
    { input_tokens := r.input_tokens, output_tokens := r.output_tokens,
      cost := r.cost, latency_ms := r.latency_ms }

/-- A moderator agent: configuration (consensus_threshold) plus its external
LLM backend. -/
structure ModeratorSpec where
  agent_id : String
  providerName : String
  model : String
  consensus_threshold : ℚ
  respond : DebateState → ProviderResponse

/-- ModeratorAgent.act. -/
def ModeratorSpec.act (m : ModeratorSpec) (s : DebateState) : DebateMessage :=
  let r := m.respond s
  create_message m.agent_id Role.moderator m.providerName m.model r.content
    s.current_round
    { input_tokens := r.input_tokens, output_tokens := r.output_tokens,
      cost := r.cost, latency_ms := r.latency_ms }

/-- The roster handed to create_debate_graph, plus the abstracted clock
values for the two datetime.now() calls. -/
structure Env where
  debaters : List DebaterSpec
  judge : JudgeSpec
  moderator : Option ModeratorSpec
  startClock : String := ""
  endClock : String := ""

/-- initialize_node (graph.py lines 37-43): phase=debate, current_round=1,
stamp start_time.  LangGraph merges the returned keys into the state. -/
def init_node (env : Env) (s : DebateState) : DebateState :=
  { s with phase := Phase.debate, current_round := 1, start_time := env.startClock }

/-- Token total of one message as accumulated by the graph nodes:
metadata.get("input_tokens", 0) + metadata.get("output_tokens", 0). -/
def msgTokens (m : DebateMessage) : Nat :=
  m.metadata.input_tokens + m.metadata.output_tokens

/-- debate_node (graph.py lines 46-65): every debater acts on the same
state (state["messages"] is never written inside the loop), the resulting
messages are merged into the transcript by the add_messages reducer and
their token/cost metadata is accumulated.  The node does not change phase
or current_round. -/
def debate_node (env : Env) (s : DebateState) : DebateState :=
  let ms := env.debaters.map (fun d => d.act s)
  { s with
    messages := s.messages ++ ms
    total_tokens := s.total_tokens + (ms.map msgTokens).sum
    total_cost := s.total_cost + (ms.map (fun m => m.metadata.cost)).sum }

/-- moderate_node (graph.py lines 68-105).  none models the TypeError that
should_stop_early raises when the parsed consensus value is non-numeric.
Note that the moderator message is appended to the transcript but its
token/cost metadata is NOT accumulated into total_tokens/total_cost. -/
def moderate_node (env : Env) (s : DebateState) : Option DebateState :=
  match env.moderator with
  | none =>
    let sc := decide (s.current_round < s.max_rounds)
    some { s with
      phase := if sc then Phase.debate else Phase.judge
      current_round := if sc then s.current_round + 1 else s.current_round
      should_continue := sc }
  | some m =>
    let message := m.act s
    let moderation := parse_moderation message.content
    match should_stop_early m.consensus_threshold moderation with
    | none => none
    | some stop =>
      if stop || s.max_rounds ≤ s.current_round then
        some { s with
          messages := s.messages ++ [message]
          phase := Phase.judge
          should_continue := false
          early_consensus := stop && decide (s.current_round < s.max_rounds)
          consensus_score := dictGetD moderation "consensus_score" (Json.num 0) }
      else
        some { s with
          messages := s.messages ++ [message]
          phase := Phase.debate
          current_round := s.current_round + 1
          should_continue := true
          consensus_score := dictGetD moderation "consensus_score" (Json.num 0) }

/-- judge_node (graph.py lines 108-129): invoke the judge, parse the
verdict, fill the result fields (with dict.get defaults), accumulate the
judge call's token/cost metadata, stamp end_time, phase=complete. -/
def judge_node (env : Env) (s : DebateState) : DebateState :=
  let message := env.judge.act s
  let verdict := parse_verdict message.content
  { s with
    messages := s.messages ++ [message]
    phase := Phase.complete
    judge_verdict := some verdict
    final_answer := dictGetD verdict "verdict" (Json.str "")
    confidence_score := dictGetD verdict "confidence" (Json.num (mkRat 1 2))
    dissenting_opinions := dictGetD verdict "dissenting_points" (Json.arr [])
    total_tokens := s.total_tokens + msgTokens message
    total_cost := s.total_cost + message.metadata.cost
    end_time := some env.endClock }

/-- The graph's nodes; Node.start is initialize_node's position (the name
initialize_node itself is not usable here). -/
inductive Node where
  | start : Node
  | debate : Node
  | moderate : Node
  | judge : Node
deriving DecidableEq, Repr

/-- route_after_moderate (graph.py lines 138-144): "judge" if
state["phase"] == "judge" else "debate". -/
def route_after_moderate (s : DebateState) : Node :=
  if s.phase = Phase.judge then Node.judge else Node.debate

/-- One LangGraph step: run the node, then follow the graph's edges
(initialize→debate, debate→moderate, moderate→route_after_moderate,
judge→END).  Outer none is an uncaught Python exception; an inner none next
node is END. -/
def stepNode (env : Env) : Node → DebateState → Option (Option Node × DebateState)
  | Node.start, s => some (some Node.debate, init_node env s)
  | Node.debate, s => some (some Node.moderate, debate_node env s)
  | Node.moderate, s =>
    (moderate_node env s).map (fun s' => (some (route_after_moderate s'), s'))
  | Node.judge, s => some (none, judge_node env s)

/-- Run the graph from a given node with fuel; some final means the run
completed (reached END). -/
def runFrom (env : Env) : Nat → Node → DebateState → Option DebateState
  | 0, _, _ => none
  | f + 1, n, s =>
    match stepNode env n s with
    | none => none
    | some (none, s') => some s'
    | some (some n', s') => runFrom env f n' s'

/-- A full run: entry point is the initialize node. -/
def run (env : Env) (fuel : Nat) (s : DebateState) : Option DebateState :=
  runFrom env fuel Node.start s

/-- RoundRobinStrategy.execute_round (round_robin.py lines 33-57): each
debater acts in roster order; after each call the message is appended to
the caller's state (state["messages"] is reassigned to an extended copy of
the list), so later debaters see earlier same-round messages.  Returns the
round's messages and the state as the caller observes it afterwards. -/
def execute_round (debaters : List DebaterSpec) (s : DebateState) :
    List DebateMessage × DebateState :=
  match debaters with
  | [] => ([], s)
  | d :: rest =>
    let message := d.act s
    let s' := { s with messages := s.messages ++ [message] }
    let p := execute_round rest s'
    (message :: p.1, p.2)

/-
Shared helper lemmas and concrete fixtures.
-/

/-- execute_round only extends the caller's transcript: the state observed
by the caller afterwards is the input state with the round's messages
appended to messages (all other fields unchanged). -/
theorem execute_round_state_eq (ds : List DebaterSpec) (s : DebateState) :
    (execute_round ds s).2 = { s with messages := s.messages ++ (execute_round ds s).1 } := by
  induction ds generalizing s with
  | nil => simp [execute_round]
  | cons d rest ih =>
    simp only [execute_round]
    rw [ih]
    simp

/-- execute_round produces one message per debater. -/
theorem execute_round_length (ds : List DebaterSpec) (s : DebateState) :
    (execute_round ds s).1.length = ds.length := by
  induction ds generalizing s with
  | nil => simp [execute_round]
  | cons d rest ih => simp [execute_round, ih]

/-- execute_round stamps every produced message with the current round. -/
theorem execute_round_rounds (ds : List DebaterSpec) (s : DebateState) :
    ∀ m ∈ (execute_round ds s).1, m.round = s.current_round := by
  induction ds generalizing s with
  | nil => simp [execute_round]
  | cons d rest ih =>
    intro m hm
    simp only [execute_round, List.mem_cons] at hm
    cases hm with
    | inl h => subst h; rfl
    | inr h => exact ih { s with messages := s.messages ++ [d.act s] } m h

/-- A concrete debater fixture with a constant provider response. -/
def cDeb (i : String) (tok : Nat) : DebaterSpec :=
  { agent_id := i, providerName := "prov", model := "mod",
    respond := fun _ =>
      { content := "arg from " ++ i, input_tokens := tok, output_tokens := tok,
        cost := 1, latency_ms := 0 } }

/-- A concrete judge fixture with a fixed response content. -/
def cJudge (content : String) : JudgeSpec :=
  { agent_id := "judge", providerName := "prov", model := "mod",
    respond := fun _ =>
      { content := content, input_tokens := 2, output_tokens := 2,
        cost := 3, latency_ms := 0 } }

/-- A concrete moderator fixture with a fixed response content. -/
def cMod (content : String) (threshold : ℚ) : ModeratorSpec :=
  { agent_id := "moderator", providerName := "prov", model := "mod",
    consensus_threshold := threshold,
    respond := fun _ =>
      { content := content, input_tokens := 5, output_tokens := 5,
        cost := 7, latency_ms := 0 } }

/-- A concrete round-1 debate state with an empty transcript. -/
def cState1 : DebateState :=
  { create_initial_state "topic" none none 3 1 with
      phase := Phase.debate, current_round := 1 }

/-- C8.  The claim asserts that execute_round appends each debater's message
only to a local copy of the transcript and leaves the caller's state's
messages field unchanged.  On the code this is false: round_robin.py line 55
reassigns state["messages"] on the caller's dict, so after the call the
caller's messages hold the appended round.  Concretely, with one debater and
an initially empty transcript the caller's messages change from [] to one
message. -/
theorem mad_c8_counterexample :
    (execute_round [cDeb "debater1" 1] cState1).2.messages ≠ cState1.messages := by
  decide

/-- C8 amended: under the sequential-with-visibility strategy each debater's
message is appended to the caller's state's messages between calls (the
list is replaced by an extended copy), so execute_round returns the round's
messages and leaves the caller's state equal to the input state with
exactly those messages appended; no other field changes. -/
theorem mad_c8 (ds : List DebaterSpec) (s : DebateState) :
    (execute_round ds s).2 = { s with messages := s.messages ++ (execute_round ds s).1 } :=
  execute_round_state_eq ds s

/-- The blind execution of graph.py's debate_node: every debater acts on
the same input state. -/
theorem debate_node_blind (env : Env) (s : DebateState) :
    (debate_node env s).messages = s.messages ++ env.debaters.map (fun d => d.act s) := rfl

/-- C9.  With three debaters in one round: under sequential-with-visibility
(execute_round) the second call's input transcript holds the first message
and the third call's input transcript holds the first two same-round
messages; under the blind execution of debate_node every debater acts on
the identical input state s, so (given that the prior transcript holds no
message of the current round) no input contains a same-round message; both
produce exactly three messages, each stamped with the current round. -/
theorem mad_c9 (d1 d2 d3 : DebaterSpec) (s : DebateState)
    (hprior : ∀ m ∈ s.messages, m.round ≠ s.current_round) :
    (execute_round [d1, d2, d3] s).1 =
      [d1.act s,
       d2.act { s with messages := s.messages ++ [d1.act s] },
       d3.act { s with messages := s.messages ++ [d1.act s,
                  d2.act { s with messages := s.messages ++ [d1.act s] }] }] ∧
    (d1.act s) ∈ s.messages ++ [d1.act s,
                  d2.act { s with messages := s.messages ++ [d1.act s] }] ∧
    (d2.act { s with messages := s.messages ++ [d1.act s] }) ∈
      s.messages ++ [d1.act s,
                  d2.act { s with messages := s.messages ++ [d1.act s] }] ∧
    (∀ env : Env, env.debaters = [d1, d2, d3] →
      (debate_node env s).messages = s.messages ++ [d1.act s, d2.act s, d3.act s] ∧
      (∀ m ∈ s.messages, m.round ≠ s.current_round) ∧
      [d1.act s, d2.act s, d3.act s].length = 3 ∧
      ∀ m ∈ [d1.act s, d2.act s, d3.act s], m.round = s.current_round) ∧
    (execute_round [d1, d2, d3] s).1.length = 3 ∧
    (∀ m ∈ (execute_round [d1, d2, d3] s).1, m.round = s.current_round) := by
  refine ⟨?_, ?_, ?_, ?_, ?_, ?_⟩
  · simp [execute_round]
  · simp
  · simp
  · intro env henv
    refine ⟨?_, hprior, rfl, ?_⟩
    · rw [debate_node_blind, henv]; rfl
    · intro m hm
      simp only [List.mem_cons, List.not_mem_nil, or_false] at hm
      rcases hm with h | h | h <;> subst h <;> rfl
  · exact execute_round_length _ s
  · exact execute_round_rounds _ s

/-- C9 witness at a concrete roster and round-1 state. -/
theorem mad_c9_witness :
    (∀ m ∈ cState1.messages, m.round ≠ cState1.current_round) ∧
    (execute_round [cDeb "a" 1, cDeb "b" 1, cDeb "c" 1] cState1).1.length = 3 :=
  ⟨by decide,
   (mad_c9 (cDeb "a" 1) (cDeb "b" 1) (cDeb "c" 1) cState1 (by decide)).2.2.2.2.1⟩

/-- String projection out of a parsed dict (empty when absent or not a
string). -/
def getStr (d : List (String × Json)) (k : String) : String :=
  match dictGet d k with
  | some (Json.str s) => s
  | _ => ""

/-- Whether the slice content[i:i+j] parses as a JSON object. -/
def sliceParsesObj (content : String) (i j : Nat) : Bool :=
  match jsonLoads (String.mk ((content.data.drop i).take j)) with
  | some (Json.obj _) => true
  | _ => false

/-- Whether some contiguous substring of content parses as a JSON object
(all substrings arise as slices with start and length at most the string
length). -/
def containsJsonObject (content : String) : Bool :=
  (List.range (content.data.length + 1)).any (fun i =>
    (List.range (content.data.length + 1)).any (fun j => sliceParsesObj content i j))

theorem pyFind_lt_length {cs : List Char} {c : Char} {i : Nat}
    (h : pyFind cs c = some i) : i < cs.length := by
  induction cs generalizing i with
  | nil => simp [pyFind] at h
  | cons x xs ih =>
    simp only [pyFind] at h
    by_cases hx : (x == c) = true
    · rw [if_pos hx] at h
      cases h
      rw [List.length_cons]
      omega
    · rw [if_neg hx] at h
      cases hp : pyFind xs c with
      | none => rw [hp] at h; cases h
      | some k =>
        rw [hp] at h
        have h2 : some (k + 1) = some i := h
        cases h2
        have := ih hp
        rw [List.length_cons]
        omega

theorem pyRFind_lt_length {cs : List Char} {c : Char} {e : Nat}
    (h : pyRFind cs c = some e) : e < cs.length := by
  simp only [pyRFind] at h
  cases hp : pyFind cs.reverse c with
  | none => rw [hp] at h; cases h
  | some i =>
    rw [hp] at h
    have h2 : some (cs.length - 1 - i) = some e := h
    cases h2
    have hi := pyFind_lt_length hp
    rw [List.length_reverse] at hi
    omega

/-- Any substring delivered by extractBraces is a slice of the content with
start index and length bounded by the content's length. -/
theorem extractBraces_slice {content : String} {sub : String}
    (h : extractBraces content = some sub) :
    ∃ i j, i ≤ content.data.length ∧ j ≤ content.data.length ∧
      sub = String.mk ((content.data.drop i).take j) := by
  unfold extractBraces at h
  split at h
  · split at h
    · cases h
      rename_i s e hf hr hse
      have h1 := pyFind_lt_length hf
      have h2 := pyRFind_lt_length hr
      exact ⟨s, e + 1 - s, by omega, by omega, rfl⟩
    · cases h
  · cases h

/-- If no substring of content parses as a JSON object then no bounded
slice does. -/
theorem not_contains_slice {content : String}
    (h : containsJsonObject content = false) {i j : Nat}
    (hi : i ≤ content.data.length) (hj : j ≤ content.data.length) :
    sliceParsesObj content i j = false := by
  cases hb : sliceParsesObj content i j with
  | false => rfl
  | true =>
    exfalso
    have htrue : containsJsonObject content = true := by
      simp only [containsJsonObject, List.any_eq_true]
      exact ⟨i, List.mem_range.mpr (by omega), j, List.mem_range.mpr (by omega), hb⟩
    rw [h] at htrue
    cases htrue

/-- parse_verdict returns the fallback whenever extraction does not deliver
a JSON object. -/
theorem parse_verdict_fallback {content : String}
    (h : ∀ fields, extractJson content ≠ some (Json.obj fields)) :
    parse_verdict content = fallbackVerdict content := by
  unfold parse_verdict
  cases hx : extractJson content with
  | none => rfl
  | some v =>
    cases v with
    | null => rfl
    | bool b => rfl
    | num q => rfl
    | str s => rfl
    | arr xs => rfl
    | obj fields => exact absurd hx (h fields)

/-- parse_moderation returns the fallback whenever extraction does not
deliver a JSON object. -/
theorem parse_moderation_fallback {content : String}
    (h : ∀ fields, extractJson content ≠ some (Json.obj fields)) :
    parse_moderation content = fallbackModeration := by
  unfold parse_moderation
  cases hx : extractJson content with
  | none => rfl
  | some v =>
    cases v with
    | null => rfl
    | bool b => rfl
    | num q => rfl
    | str s => rfl
    | arr xs => rfl
    | obj fields => exact absurd hx (h fields)

/-- A successful extraction on content without any JSON-object substring is
impossible. -/
theorem extractJson_of_no_object {content : String}
    (h : containsJsonObject content = false) :
    ∀ fields, extractJson content ≠ some (Json.obj fields) := by
  intro fields hx
  unfold extractJson at hx
  cases hsub : extractBraces content with
  | none => rw [hsub] at hx; cases hx
  | some sub =>
    rw [hsub] at hx
    have hx2 : jsonLoads sub = some (Json.obj fields) := hx
    obtain ⟨i, j, hi, hj, rfl⟩ := extractBraces_slice hsub
    have hfalse := not_contains_slice h hi hj
    unfold sliceParsesObj at hfalse
    rw [hx2] at hfalse
    cases hfalse

/-- C4 (amended: the fallback reasoning string is capitalized, "Unable to
parse structured verdict").  For every input containing no substring that
parses as a JSON object, parse_verdict returns — it is a total function,
so it never raises — the degraded verdict: verdict = the raw input,
confidence = 0.5, reasoning = "Unable to parse structured verdict", empty
consensus_points and dissenting_points. -/
theorem mad_c4 (content : String) (h : containsJsonObject content = false) :
    parse_verdict content = fallbackVerdict content :=
  parse_verdict_fallback (extractJson_of_no_object h)

/-- C4 counterexample to the claim as stated: on an input with no JSON
object the reasoning field of the degraded verdict is the capitalized
string "Unable to parse structured verdict" (judge.py line 158), not the
claimed lowercase "unable to parse structured verdict". -/
theorem mad_c4_counterexample :
    containsJsonObject "no json" = false ∧
    getStr (parse_verdict "no json") "reasoning" = "Unable to parse structured verdict" ∧
    getStr (parse_verdict "no json") "reasoning" ≠ "unable to parse structured verdict" :=
  ⟨by decide, rfl, by decide⟩

/-- C4 witness: a concrete object-free input, with the amended conclusion. -/
theorem mad_c4_witness :
    containsJsonObject "nope" = false ∧
    parse_verdict "nope" = fallbackVerdict "nope" :=
  ⟨by decide, mad_c4 "nope" (by decide)⟩

/-- should_stop_early on the fail-open fallback dict: the stored consensus
score 0 does not reach a positive threshold and should_continue is true, so
the decision is false. -/
theorem should_stop_early_fallback {t : ℚ} (ht : 0 < t) :
    should_stop_early t fallbackModeration = some false := by
  have e1 : dictGet fallbackModeration "consensus_score" = some (Json.num 0) := rfl
  have e2 : dictGetD fallbackModeration "should_continue" (Json.bool true) = Json.bool true := rfl
  simp [should_stop_early, e1, e2, pyNum, pyTruthy, ht.not_le]

/-- C5.  For every moderation response whose brace-extraction parse fails,
parse_moderation returns the fail-open defaults (consensus_score 0,
should_continue true); should_stop_early on that result is false for any
positive consensus threshold; and the moderate step with such a response
sends the run to the judge exactly when current_round has reached
max_rounds (equality, given the round invariant current_round <=
max_rounds), continuing the debate otherwise. -/
theorem mad_c5 (env : Env) (m : ModeratorSpec) (s : DebateState)
    (henv : env.moderator = some m)
    (h : extractJson ((m.respond s).content) = none)
    (hthr : 0 < m.consensus_threshold)
    (hle : s.current_round ≤ s.max_rounds) :
    parse_moderation ((m.respond s).content) = fallbackModeration ∧
    should_stop_early m.consensus_threshold (parse_moderation ((m.respond s).content)) =
      some false ∧
    ((moderate_node env s).map (fun x => x.phase) = some Phase.judge ↔
      s.current_round = s.max_rounds) ∧
    ((moderate_node env s).map (fun x => x.phase) = some Phase.debate ↔
      s.current_round < s.max_rounds) := by
  have hpm : parse_moderation ((m.respond s).content) = fallbackModeration :=
    parse_moderation_fallback (fun fields hx => by rw [h] at hx; cases hx)
  have hsse := should_stop_early_fallback hthr
  have hc : (m.act s).content = (m.respond s).content := rfl
  have hph : (moderate_node env s).map (fun x => x.phase) =
      some (if s.max_rounds ≤ s.current_round then Phase.judge else Phase.debate) := by
    simp only [moderate_node, henv, hc, hpm, hsse]
    by_cases hgeq : s.max_rounds ≤ s.current_round
    · simp [hgeq]
    · simp [hgeq]
  refine ⟨hpm, by rw [hpm]; exact hsse, ?_, ?_⟩
  · rw [hph]
    by_cases hgeq : s.max_rounds ≤ s.current_round
    · simp only [if_pos hgeq, Option.some.injEq]
      constructor
      · intro _; omega
      · intro _; trivial
    · rw [if_neg hgeq]
      simp only [Option.some.injEq]
      constructor
      · intro hcontra; cases hcontra
      · intro heq; omega
  · rw [hph]
    by_cases hgeq : s.max_rounds ≤ s.current_round
    · rw [if_pos hgeq]
      simp only [Option.some.injEq]
      constructor
      · intro hcontra; cases hcontra
      · intro hlt; omega
    · rw [if_neg hgeq]
      simp only [Option.some.injEq]
      constructor
      · intro _; omega
      · intro _; trivial

/-- Concrete moderator environment with an unparseable moderation response
and the default threshold 0.8, one debater, max_rounds 3. -/
def cEnvM : Env :=
  { debaters := [cDeb "debater1" 1],
    judge := cJudge "done",
    moderator := some (cMod "cannot assess" (mkRat 4 5)) }

/-- C5 witness at the concrete moderator environment and a round-1 state. -/
theorem mad_c5_witness :
    extractJson (((cMod "cannot assess" (mkRat 4 5)).respond cState1).content) = none ∧
    parse_moderation (((cMod "cannot assess" (mkRat 4 5)).respond cState1).content) =
      fallbackModeration ∧
    ((moderate_node cEnvM cState1).map (fun x => x.phase) = some Phase.debate ↔
      cState1.current_round < cState1.max_rounds) := by
  have happ := mad_c5 cEnvM (cMod "cannot assess" (mkRat 4 5)) cState1 rfl rfl
    (by decide) (by decide)
  exact ⟨rfl, happ.1, happ.2.2.2⟩

/-- C7.  The parser of judge and moderator output strictly parses the
substring from the first open brace to the last close brace: when that
substring is a valid JSON object the parsed fields are returned, and
otherwise the explicit fallback value is returned. -/
theorem mad_c7 (content : String) :
    (∀ fields, extractJson content = some (Json.obj fields) →
      parse_verdict content = fields ∧ parse_moderation content = fields) ∧
    ((∀ fields, extractJson content ≠ some (Json.obj fields)) →
      parse_verdict content = fallbackVerdict content ∧
      parse_moderation content = fallbackModeration) := by
  constructor
  · intro fields hx
    constructor
    · unfold parse_verdict; rw [hx]
    · unfold parse_moderation; rw [hx]
  · intro h
    exact ⟨parse_verdict_fallback h, parse_moderation_fallback h⟩

/-- A response holding a balanced JSON object followed by free text with a
stray close brace. -/
def c7content : String := "\x7b\"a\": 1\x7d x\x7d"

/-- C7 counterexample to the claim as stated: c7content embeds the balanced
JSON object from its first eight characters (which parses to the fields
list with key "a"), yet both parsers return the fallback value — the code
takes the substring from the first open brace to the LAST close brace,
which here includes the trailing free text and fails strict parsing.  The
claim's promised result would contain the key "a"; the actual result does
not. -/
theorem mad_c7_counterexample :
    jsonLoads "\x7b\"a\": 1\x7d" = some (Json.obj [("a", Json.num 1)]) ∧
    parse_verdict c7content = fallbackVerdict c7content ∧
    parse_moderation c7content = fallbackModeration ∧
    getStr (parse_verdict c7content) "verdict" = c7content ∧
    dictGet (parse_verdict c7content) "a" = none :=
  ⟨rfl, rfl, rfl, rfl, rfl⟩

/-- C7 witness: a response with one balanced object and no stray braces is
extracted and strictly parsed. -/
theorem mad_c7_witness :
    extractJson "txt \x7b\"a\": 1\x7d" = some (Json.obj [("a", Json.num 1)]) ∧
    parse_verdict "txt \x7b\"a\": 1\x7d" = [("a", Json.num 1)] :=
  ⟨rfl, ((mad_c7 "txt \x7b\"a\": 1\x7d").1 [("a", Json.num 1)] rfl).1⟩

/-- C2.  With a moderator configured, the moderate step appends exactly the
moderator's single message, and: when should_stop_early returns true or
current_round >= max_rounds it transitions to phase judge keeping
current_round and recording early_consensus = should_stop_early AND
current_round < max_rounds; otherwise it transitions to phase debate with
current_round incremented by 1. -/
theorem mad_c2 (env : Env) (m : ModeratorSpec) (s : DebateState) (stop : Bool)
    (henv : env.moderator = some m)
    (hstop : should_stop_early m.consensus_threshold
        (parse_moderation ((m.respond s).content)) = some stop) :
    ((moderate_node env s).map (fun x => x.messages) =
      some (s.messages ++ [m.act s])) ∧
    (stop = true ∨ s.max_rounds ≤ s.current_round →
      (moderate_node env s).map (fun x => (x.phase, x.current_round, x.early_consensus)) =
        some (Phase.judge, s.current_round,
          stop && decide (s.current_round < s.max_rounds))) ∧
    (stop = false ∧ s.current_round < s.max_rounds →
      (moderate_node env s).map (fun x => (x.phase, x.current_round, x.early_consensus)) =
        some (Phase.debate, s.current_round + 1, s.early_consensus)) := by
  have hc : (m.act s).content = (m.respond s).content := rfl
  refine ⟨?_, ?_, ?_⟩
  · simp only [moderate_node, henv, hc, hstop]
    by_cases hcond : (stop || decide (s.max_rounds ≤ s.current_round)) = true
    · simp [hcond]
    · simp [hcond]
  · intro hj
    have hcond : (stop || decide (s.max_rounds ≤ s.current_round)) = true := by
      rcases hj with h1 | h2
      · simp [h1]
      · simp [h2]
    simp only [moderate_node, henv, hc, hstop]
    simp [hcond]
  · rintro ⟨h1, h2⟩
    have hcond : (stop || decide (s.max_rounds ≤ s.current_round)) = false := by
      simp [h1]
      omega
    simp only [moderate_node, henv, hc, hstop]
    simp [hcond]

/-- The early-stop scenario's moderation response: consensus_score 0.85. -/
def cModeration85 : String :=
  "\x7b\"consensus_score\": 0.85, \"should_continue\": true\x7d"

/-- Early-stop scenario environment: 2 debaters, moderator threshold 0.8. -/
def cEnv85 : Env :=
  { debaters := [cDeb "a" 1, cDeb "b" 1],
    judge := cJudge "done",
    moderator := some (cMod cModeration85 (mkRat 4 5)) }

/-- Early-stop scenario state: round 1 of max_rounds 5. -/
def cState85 : DebateState :=
  { create_initial_state "t" none none 5 2 with
      phase := Phase.debate, current_round := 1 }

/-- C2 witness: the spec's early-stop scenario — max_rounds 5, threshold
0.8, round-1 moderation with consensus_score 0.85 — yields phase judge with
current_round 1 and early_consensus true. -/
theorem mad_c2_witness :
    should_stop_early (mkRat 4 5) (parse_moderation cModeration85) = some true ∧
    (moderate_node cEnv85 cState85).map
        (fun x => (x.phase, x.current_round, x.early_consensus)) =
      some (Phase.judge, 1, true) := by
  have h := (mad_c2 cEnv85 (cMod cModeration85 (mkRat 4 5)) cState85 true rfl
    (by decide)).2.1 (Or.inl rfl)
  exact ⟨by decide, h⟩

/-- No-moderator scenario environment: 3 debaters, no moderator. -/
def cEnv3 : Env :=
  { debaters := [cDeb "d1" 1, cDeb "d2" 1, cDeb "d3" 1],
    judge := cJudge "done",
    moderator := none }

/-- No-moderator scenario initial state: max_rounds 2, 3 debaters. -/
def cInit3 : DebateState := create_initial_state "topic" none none 2 3

/-- C3.  Without a moderator the moderate step transitions to debate with
current_round + 1 while current_round < max_rounds and to judge with
current_round unchanged otherwise, never touching the transcript; the
concrete no-moderator run with 3 debaters and max_rounds 2 completes with
exactly 6 debater messages (rounds 1,1,1,2,2,2) followed by the single
judge message, with current_round 2. -/
theorem mad_c3 :
    (∀ (env : Env) (s : DebateState), env.moderator = none →
      (moderate_node env s).map (fun x => (x.phase, x.current_round, x.messages)) =
        some (if s.current_round < s.max_rounds
              then (Phase.debate, s.current_round + 1, s.messages)
              else (Phase.judge, s.current_round, s.messages))) ∧
    ((run cEnv3 10 cInit3).map (fun x =>
        ((x.messages.filter (fun mes => mes.agent_role == Role.debater)).length,
         x.messages.map (fun mes => mes.agent_role),
         x.messages.map (fun mes => mes.round),
         x.current_round, x.phase)) =
      some (6,
        [Role.debater, Role.debater, Role.debater, Role.debater, Role.debater,
         Role.debater, Role.judge],
        [1, 1, 1, 2, 2, 2, 2], 2, Phase.complete)) := by
  constructor
  · intro env s henv
    simp only [moderate_node, henv]
    by_cases hlt : s.current_round < s.max_rounds
    · simp [hlt]
    · simp [hlt]
  · decide

/-- C3 witness: the moderate step of the no-moderator environment at a
round-1 state of max_rounds 3 continues to debate with round 2. -/
theorem mad_c3_witness :
    (moderate_node cEnv3 cState1).map (fun x => (x.phase, x.current_round, x.messages)) =
      some (Phase.debate, 2, cState1.messages) := by
  have h := mad_c3.1 cEnv3 cState1 rfl
  exact h

/-- Judge environment whose response is the empty JSON object. -/
def cEnvJEmpty : Env :=
  { debaters := [cDeb "debater1" 1], judge := cJudge "\x7b\x7d", moderator := none }

/-- Judge environment whose response holds no JSON at all. -/
def cEnvJText : Env :=
  { debaters := [cDeb "debater1" 1], judge := cJudge "no structured verdict",
    moderator := none }

/-- One-round, one-debater initial state for the judge-default runs. -/
def cInitJ : DebateState := create_initial_state "t" none none 1 1

/-- C10.  When the judge response parses to an object without the expected
keys (here exactly the empty object), the completed run's final_answer is
the empty string, confidence_score is 0.5 and dissenting_opinions is the
empty list, the parsed (empty) verdict being recorded; a run whose judge
response fails to parse entirely also ends with confidence_score 0.5 —
the two situations are not distinguished by the confidence value, although
their recorded judge_verdicts differ. -/
theorem mad_c10 :
    (run cEnvJEmpty 10 cInitJ).map (fun x => x.final_answer) = some (Json.str "") ∧
    (run cEnvJEmpty 10 cInitJ).map (fun x => x.confidence_score) =
      some (Json.num (mkRat 1 2)) ∧
    (run cEnvJEmpty 10 cInitJ).map (fun x => x.dissenting_opinions) = some (Json.arr []) ∧
    (run cEnvJEmpty 10 cInitJ).map (fun x => x.judge_verdict) = some (some []) ∧
    (run cEnvJEmpty 10 cInitJ).map (fun x => x.phase) = some Phase.complete ∧
    (run cEnvJText 10 cInitJ).map (fun x => x.confidence_score) =
      some (Json.num (mkRat 1 2)) ∧
    (run cEnvJText 10 cInitJ).map (fun x => x.judge_verdict) =
      some (some (fallbackVerdict "no structured verdict")) ∧
    (run cEnvJText 10 cInitJ).map (fun x => x.phase) = some Phase.complete :=
  ⟨rfl, rfl, rfl, rfl, rfl, rfl, rfl, rfl⟩

/-- Reachable configurations of a graph run started at the initialize node
on state s0: the first component is the node about to execute (none once
the run has reached END). -/
inductive Reach (env : Env) (s0 : DebateState) : Option Node → DebateState → Prop where
  | start : Reach env s0 (some Node.start) s0
  | step {n : Node} {s : DebateState} {nxt : Option Node} {s' : DebateState} :
      Reach env s0 (some n) s → stepNode env n s = some (nxt, s') →
      Reach env s0 nxt s'

/-- The stage transitions the spec's phase sequence permits:
init→debate, debate→moderate, moderate→debate, moderate→judge,
judge→complete (END). -/
def allowedEdge : Node → Option Node → Prop
  | Node.start, some Node.debate => True
  | Node.debate, some Node.moderate => True
  | Node.moderate, some Node.debate => True
  | Node.moderate, some Node.judge => True
  | Node.judge, none => True
  | _, _ => False

/-- Every step the graph can take follows an allowed stage transition. -/
theorem stepNode_allowed (env : Env) (n : Node) (s : DebateState)
    {nxt : Option Node} {s' : DebateState}
    (h : stepNode env n s = some (nxt, s')) : allowedEdge n nxt := by
  cases n with
  | start => cases h; trivial
  | debate => cases h; trivial
  | judge => cases h; trivial
  | moderate =>
    simp only [stepNode] at h
    cases hm : moderate_node env s with
    | none => rw [hm] at h; cases h
    | some t =>
      rw [hm] at h
      have h2 : some (some (route_after_moderate t), t) = some (nxt, s') := h
      injection h2 with h3
      have hnxt : nxt = some (route_after_moderate t) := (congrArg Prod.fst h3).symm
      subst hnxt
      unfold route_after_moderate
      by_cases hp : t.phase = Phase.judge
      · rw [if_pos hp]; trivial
      · rw [if_neg hp]; trivial

/-- The moderate node preserves max_rounds and keeps current_round within
it. -/
theorem moderate_node_round {env : Env} {s t : DebateState}
    (hm : moderate_node env s = some t)
    (hle : s.current_round ≤ s.max_rounds) :
    t.current_round ≤ t.max_rounds ∧ t.max_rounds = s.max_rounds := by
  cases henv : env.moderator with
  | none =>
    simp only [moderate_node, henv] at hm
    cases hm
    refine ⟨?_, rfl⟩
    show (if decide (s.current_round < s.max_rounds) = true then s.current_round + 1
          else s.current_round) ≤ s.max_rounds
    split
    · rename_i hth
      simp only [decide_eq_true_eq] at hth
      omega
    · omega
  | some m =>
    simp only [moderate_node, henv] at hm
    split at hm
    · cases hm
    · split at hm
      · cases hm
        exact ⟨hle, rfl⟩
      · cases hm
        rename_i stop hs hcond
        simp only [Bool.or_eq_true, decide_eq_true_eq, not_or] at hcond
        refine ⟨?_, rfl⟩
        show s.current_round + 1 ≤ s.max_rounds
        omega

/-- Each step preserves the round invariant current_round <= max_rounds
and never changes max_rounds, given max_rounds >= 1. -/
theorem stepNode_round_inv (env : Env) (n : Node) (s : DebateState)
    {nxt : Option Node} {s' : DebateState}
    (h : stepNode env n s = some (nxt, s'))
    (hmr : 1 ≤ s.max_rounds) (hle : s.current_round ≤ s.max_rounds) :
    s'.current_round ≤ s'.max_rounds ∧ s'.max_rounds = s.max_rounds := by
  cases n with
  | start => cases h; exact ⟨hmr, rfl⟩
  | debate => cases h; exact ⟨hle, rfl⟩
  | judge => cases h; exact ⟨hle, rfl⟩
  | moderate =>
    simp only [stepNode] at h
    cases hm : moderate_node env s with
    | none => rw [hm] at h; cases h
    | some t =>
      rw [hm] at h
      have h2 : some (some (route_after_moderate t), t) = some (nxt, s') := h
      cases h2
      exact moderate_node_round hm hle

/-- A run ends (next node none) only through the judge node, whose output
phase is complete. -/
theorem stepNode_end_complete (env : Env) (n : Node) (s : DebateState)
    {s' : DebateState} (h : stepNode env n s = some (none, s')) :
    s'.phase = Phase.complete := by
  cases n with
  | start => cases h
  | debate => cases h
  | judge => cases h; rfl
  | moderate =>
    simp only [stepNode] at h
    cases hm : moderate_node env s with
    | none => rw [hm] at h; cases h
    | some t =>
      rw [hm] at h
      have h2 : some (some (route_after_moderate t), t) = some (none, s') := h
      cases h2

/-- C6.  For every run started on the initial state with max_rounds M > 0:
every reachable state satisfies current_round <= max_rounds with
max_rounds unchanged (current_round is a natural number, so
0 <= current_round holds by type); every step taken follows the stage
sequence init→debate→moderate→{debate|judge}→complete; and a configuration
past END (reachable with no next node) has phase complete and is terminal —
no step is defined from it. -/
theorem mad_c6 (env : Env) (topic : String) (context preset : Option String)
    (M dc : Nat) (hM : 0 < M) :
    (∀ (onode : Option Node) (s : DebateState),
      Reach env (create_initial_state topic context preset M dc) onode s →
      s.current_round ≤ s.max_rounds ∧ s.max_rounds = M) ∧
    (∀ (n : Node) (s : DebateState) (nxt : Option Node) (s' : DebateState),
      stepNode env n s = some (nxt, s') → allowedEdge n nxt) ∧
    (∀ s : DebateState,
      Reach env (create_initial_state topic context preset M dc) none s →
      s.phase = Phase.complete) := by
  refine ⟨?_, ?_, ?_⟩
  · intro onode s hreach
    induction hreach with
    | start => exact ⟨Nat.zero_le M, rfl⟩
    | @step n1 s1 nxt1 s1' hprev hstep ih =>
      obtain ⟨ihle, ihmax⟩ := ih
      have hmr : 1 ≤ s1.max_rounds := by rw [ihmax]; omega
      obtain ⟨hle', hmax'⟩ := stepNode_round_inv env n1 s1 hstep hmr ihle
      exact ⟨hle', by rw [hmax', ihmax]⟩
  · intro n s nxt s' h
    exact stepNode_allowed env n s h
  · intro s hreach
    cases hreach with
    | step hprev hstep => exact stepNode_end_complete env _ _ hstep

/-- C6 witness at a concrete environment and the concrete initial state of
the no-moderator scenario. -/
theorem mad_c6_witness :
    cInit3.current_round ≤ cInit3.max_rounds ∧ cInit3.max_rounds = 2 :=
  (mad_c6 cEnv3 "topic" none none 2 3 (by decide)).1 (some Node.start) cInit3 Reach.start

/-- Which messages the graph nodes bill: debate_node accumulates debater
messages and judge_node the judge message; moderate_node accumulates
nothing. -/
def isBilled (m : DebateMessage) : Bool :=
  m.agent_role == Role.debater || m.agent_role == Role.judge

/-- Sum of the token metadata of the billed (debater and judge) messages. -/
def billedTokens (ms : List DebateMessage) : Nat :=
  ((ms.filter isBilled).map msgTokens).sum

/-- Sum of the cost metadata of the billed (debater and judge) messages. -/
def billedCost (ms : List DebateMessage) : ℚ :=
  ((ms.filter isBilled).map (fun m => m.metadata.cost)).sum

/-- Sum of the token metadata over every message of the transcript — one
message per successful agent call, moderator calls included. -/
def transcriptTokens (ms : List DebateMessage) : Nat :=
  (ms.map msgTokens).sum

theorem billedTokens_append (a b : List DebateMessage) :
    billedTokens (a ++ b) = billedTokens a + billedTokens b := by
  simp [billedTokens, List.filter_append]

theorem billedCost_append (a b : List DebateMessage) :
    billedCost (a ++ b) = billedCost a + billedCost b := by
  simp [billedCost, List.filter_append]

theorem filter_isBilled_debaters (ds : List DebaterSpec) (s : DebateState) :
    (ds.map (fun d => d.act s)).filter isBilled = ds.map (fun d => d.act s) := by
  apply List.filter_eq_self.mpr
  intro m hm
  rcases List.mem_map.mp hm with ⟨d, _, rfl⟩
  rfl

/-- Each step keeps the totals equal to the billed sums over the
transcript. -/
theorem stepNode_billed (env : Env) (n : Node) (s : DebateState)
    {nxt : Option Node} {s' : DebateState}
    (h : stepNode env n s = some (nxt, s'))
    (ht : s.total_tokens = billedTokens s.messages)
    (hc : s.total_cost = billedCost s.messages) :
    s'.total_tokens = billedTokens s'.messages ∧
    s'.total_cost = billedCost s'.messages := by
  cases n with
  | start => cases h; exact ⟨ht, hc⟩
  | debate =>
    cases h
    constructor
    · show s.total_tokens + ((env.debaters.map (fun d => d.act s)).map msgTokens).sum =
        billedTokens (s.messages ++ env.debaters.map (fun d => d.act s))
      rw [billedTokens_append, ht]
      congr 1
      rw [billedTokens, filter_isBilled_debaters]
    · show s.total_cost +
          ((env.debaters.map (fun d => d.act s)).map (fun m => m.metadata.cost)).sum =
        billedCost (s.messages ++ env.debaters.map (fun d => d.act s))
      rw [billedCost_append, hc]
      congr 1
      rw [billedCost, filter_isBilled_debaters]
  | judge =>
    cases h
    have hb : isBilled (env.judge.act s) = true := rfl
    constructor
    · show s.total_tokens + msgTokens (env.judge.act s) =
        billedTokens (s.messages ++ [env.judge.act s])
      rw [billedTokens_append, ht]
      simp [billedTokens, hb]
    · show s.total_cost + (env.judge.act s).metadata.cost =
        billedCost (s.messages ++ [env.judge.act s])
      rw [billedCost_append, hc]
      simp [billedCost, hb]
  | moderate =>
    simp only [stepNode] at h
    cases hm : moderate_node env s with
    | none => rw [hm] at h; cases h
    | some t =>
      rw [hm] at h
      have h2 : some (some (route_after_moderate t), t) = some (nxt, s') := h
      injection h2 with h3
      have hts : t = s' := congrArg Prod.snd h3
      subst hts
      cases henv : env.moderator with
      | none =>
        simp only [moderate_node, henv] at hm
        cases hm
        exact ⟨ht, hc⟩
      | some m =>
        simp only [moderate_node, henv] at hm
        have hbm : isBilled (m.act s) = false := rfl
        split at hm
        · cases hm
        · split at hm
          · cases hm
            constructor
            · show s.total_tokens = billedTokens (s.messages ++ [m.act s])
              rw [billedTokens_append, ht]
              simp [billedTokens, hbm]
            · show s.total_cost = billedCost (s.messages ++ [m.act s])
              rw [billedCost_append, hc]
              simp [billedCost, hbm]
          · cases hm
            constructor
            · show s.total_tokens = billedTokens (s.messages ++ [m.act s])
              rw [billedTokens_append, ht]
              simp [billedTokens, hbm]
            · show s.total_cost = billedCost (s.messages ++ [m.act s])
              rw [billedCost_append, hc]
              simp [billedCost, hbm]

/-- Totals equal billed sums along any completed tail of a run. -/
theorem runFrom_billed (env : Env) :
    ∀ (fuel : Nat) (n : Node) (s final : DebateState),
      s.total_tokens = billedTokens s.messages →
      s.total_cost = billedCost s.messages →
      runFrom env fuel n s = some final →
      final.total_tokens = billedTokens final.messages ∧
      final.total_cost = billedCost final.messages := by
  intro fuel
  induction fuel with
  | zero => intro n s final _ _ h; cases h
  | succ f ih =>
    intro n s final ht hc h
    simp only [runFrom] at h
    cases hstep : stepNode env n s with
    | none => rw [hstep] at h; cases h
    | some p =>
      rw [hstep] at h
      obtain ⟨nxt, s'⟩ := p
      obtain ⟨ht', hc'⟩ := stepNode_billed env n s hstep ht hc
      cases nxt with
      | none =>
        have h4 : some s' = some final := h
        cases h4
        exact ⟨ht', hc'⟩
      | some n' => exact ih n' s' final ht' hc' h

/-- All provider responses an environment can produce carry non-negative
cost (spec section 6: cost is a billing amount). -/
def Env.nonnegCosts (env : Env) : Prop :=
  (∀ d ∈ env.debaters, ∀ s : DebateState, 0 ≤ (d.respond s).cost) ∧
  (∀ s : DebateState, 0 ≤ (env.judge.respond s).cost) ∧
  (∀ m : ModeratorSpec, env.moderator = some m →
    ∀ s : DebateState, 0 ≤ (m.respond s).cost)

/-- Each step leaves total_tokens and (given non-negative per-call costs)
total_cost non-decreasing. -/
theorem stepNode_monotone (env : Env) (hnn : env.nonnegCosts) (n : Node)
    (s : DebateState) {nxt : Option Node} {s' : DebateState}
    (h : stepNode env n s = some (nxt, s')) :
    s.total_tokens ≤ s'.total_tokens ∧ s.total_cost ≤ s'.total_cost := by
  cases n with
  | start => cases h; exact ⟨le_refl _, le_refl _⟩
  | debate =>
    cases h
    constructor
    · exact Nat.le_add_right _ _
    · show s.total_cost ≤ s.total_cost +
          ((env.debaters.map (fun d => d.act s)).map (fun m => m.metadata.cost)).sum
      have hsum : 0 ≤
          ((env.debaters.map (fun d => d.act s)).map (fun m => m.metadata.cost)).sum := by
        apply List.sum_nonneg
        intro x hx
        rcases List.mem_map.mp hx with ⟨msg, hmsg, rfl⟩
        rcases List.mem_map.mp hmsg with ⟨d, hd, rfl⟩
        exact hnn.1 d hd s
      linarith
  | judge =>
    cases h
    constructor
    · exact Nat.le_add_right _ _
    · show s.total_cost ≤ s.total_cost + (env.judge.act s).metadata.cost
      have := hnn.2.1 s
      have hj : (env.judge.act s).metadata.cost = (env.judge.respond s).cost := rfl
      linarith
  | moderate =>
    simp only [stepNode] at h
    cases hm : moderate_node env s with
    | none => rw [hm] at h; cases h
    | some t =>
      rw [hm] at h
      have h2 : some (some (route_after_moderate t), t) = some (nxt, s') := h
      injection h2 with h3
      have hts : t = s' := congrArg Prod.snd h3
      subst hts
      cases henv : env.moderator with
      | none =>
        simp only [moderate_node, henv] at hm
        cases hm
        exact ⟨le_refl _, le_refl _⟩
      | some m =>
        simp only [moderate_node, henv] at hm
        split at hm
        · cases hm
        · split at hm
          · cases hm; exact ⟨le_refl _, le_refl _⟩
          · cases hm; exact ⟨le_refl _, le_refl _⟩

/-- C1 (amended: moderator calls are excluded from the totals).  At the end
of every completed run started from the initial state, total_tokens and
total_cost equal the sums of the per-call token/cost metadata of the
successful debater and judge calls — the moderator's message is appended
to the transcript but moderate_node never accumulates its metadata — and
both totals are non-decreasing across every step, total_cost under
non-negative per-call costs. -/
theorem mad_c1 (env : Env) :
    (∀ (fuel : Nat) (topic : String) (context preset : Option String)
        (M dc : Nat) (final : DebateState),
      run env fuel (create_initial_state topic context preset M dc) = some final →
      final.total_tokens = billedTokens final.messages ∧
      final.total_cost = billedCost final.messages) ∧
    (env.nonnegCosts →
      ∀ (n : Node) (s : DebateState) (nxt : Option Node) (s' : DebateState),
        stepNode env n s = some (nxt, s') →
        s.total_tokens ≤ s'.total_tokens ∧ s.total_cost ≤ s'.total_cost) := by
  constructor
  · intro fuel topic context preset M dc final h
    exact runFrom_billed env fuel Node.start
      (create_initial_state topic context preset M dc) final rfl rfl h
  · intro hnn n s nxt s' h
    exact stepNode_monotone env hnn n s h

/-- C1 counterexample to the claim as stated: in the completed run of the
one-debater, one-round environment with a moderator (cEnvM), the final
total_tokens is 6 (debater 2 + judge 4) while the per-call metadata summed
over every successful agent call of the transcript — the moderator call
included — is 16; the moderator's 10 tokens are never accumulated. -/
theorem mad_c1_counterexample :
    (run cEnvM 10 (create_initial_state "t" none none 1 1)).map
        (fun x => (x.total_tokens, transcriptTokens x.messages)) = some (6, 16) ∧
    (6 : Nat) ≠ 16 :=
  ⟨by decide, by decide⟩

/-- C1 witness: the amended theorem applied to the concrete moderator
environment, both for the run-end equality and for one monotone step. -/
theorem mad_c1_witness :
    (∃ final, run cEnvM 10 (create_initial_state "t" none none 1 1) = some final ∧
      final.total_tokens = billedTokens final.messages ∧
      final.total_cost = billedCost final.messages) ∧
    cState1.total_tokens ≤ (init_node cEnvM cState1).total_tokens := by
  have hnn : cEnvM.nonnegCosts := by
    refine ⟨?_, ?_, ?_⟩
    · intro d hd s
      simp only [cEnvM, List.mem_singleton] at hd
      subst hd
      show (0 : ℚ) ≤ 1
      decide
    · intro s
      show (0 : ℚ) ≤ 3
      decide
    · intro m hm s
      simp only [cEnvM, Option.some.injEq] at hm
      subst hm
      show (0 : ℚ) ≤ 7
      decide
  constructor
  · cases hr : run cEnvM 10 (create_initial_state "t" none none 1 1) with
    | none =>
      have hsome : (run cEnvM 10 (create_initial_state "t" none none 1 1)).isSome = true := by
        decide
      rw [hr] at hsome
      cases hsome
    | some final =>
      exact ⟨final, rfl, (mad_c1 cEnvM).1 10 "t" none none 1 1 final hr⟩
  · exact ((mad_c1 cEnvM).2 hnn Node.start cState1 (some Node.debate)
      (init_node cEnvM cState1) rfl).1
